import Mathlib

/-!
Shallow embedding of the Kiddo event-pipeline core (queue, orchestrator
loops, extractor) together with proofs about its spec-level properties.

The definitions mirror the Python sources:
  * `src/src/queue/queue.py`        — `InMemoryEventQueue`
  * `src/src/orchestrator.py`       — `SystemOrchestrator.start` / `_processing_loop`
  * `src/src/processing/extractor.py` — `DataExtractor.extract` / `_validate`
  * `src/src/models/event.py`       — `RawEvent`, `StructuredEvent.__post_init__`
-/

namespace Kiddo

/-- A dynamically typed Python value, covering the cases the pipeline
manipulates: `None`, strings, ints, bools, datetimes (abstracted as an
integer timeline), lists and string-keyed dicts. -/
inductive PyVal where
  | none
  | str (s : String)
  | int (n : Int)
  | bool (b : Bool)
  | dt (t : Int)
  | list (l : List PyVal)
  | dict (l : List (String × PyVal))

/-- Python truthiness (`bool(v)`) for the values we model: `None`, `""`,
`0`, `False`, the empty list and the empty dict are falsy. -/
def pyTruthy : PyVal → Bool
  | .none => false
  | .str s => !(s = "")
  | .int n => !(n = 0)
  | .bool b => b
  | .dt _ => true
  | .list l => !l.isEmpty
  | .dict l => !l.isEmpty

/-- Python `d.get(k)` on a string-keyed dict (returns `None` when absent).
Python dicts have unique keys, so first-match lookup is exact. -/
def pyGet (d : List (String × PyVal)) (k : String) : PyVal :=
  match d.find? (fun p => p.1 = k) with
  | Option.some p => p.2
  | Option.none => PyVal.none

/-- Python `d.get(k, default)` on a string-keyed dict. -/
def pyGetD (d : List (String × PyVal)) (k : String) (dflt : PyVal) : PyVal :=
  match d.find? (fun p => p.1 = k) with
  | Option.some p => p.2
  | Option.none => dflt

/-- The `RawEvent` dataclass (`src/src/models/event.py`): `event_id` is
`Optional[str]`, timestamps live on the abstract integer timeline. -/
structure RawEvent where
  source_id : String
  timestamp : Int
  raw_payload : List (String × PyVal)
  source_metadata : List (String × PyVal)
  event_id : Option String

/-! ## In-memory event queue (`src/src/queue/queue.py`)

`InMemoryEventQueue` holds a backlog list `queue` and an in-flight dict
`processing` keyed by the consumed event's `event_id` (which may be
Python `None`, hence keys of type `Option String`).  The dict is
embedded as an association list with unique keys: insertion replaces any
entry with the same key, deletion removes it. -/

/-- In-flight dict: entries keyed by `Option String`. -/
abbrev InFlight := List (Option String × RawEvent)

namespace InFlight

/-- Python `del d[k]` / `d.pop(k)` key removal (no-op when the key is absent). -/
def erase (m : InFlight) (k : Option String) : InFlight :=
  m.filter (fun p => !(p.1 = k))

/-- Python `d[k] = v`: replace-or-add, keeping keys unique. -/
def insert (m : InFlight) (k : Option String) (e : RawEvent) : InFlight :=
  erase m k ++ [(k, e)]

/-- Python `k in d` membership test. -/
def contains (m : InFlight) (k : Option String) : Bool :=
  m.any (fun p => p.1 = k)

/-- Python `d[k]` / `d.pop(k)` lookup. -/
def get? (m : InFlight) (k : Option String) : Option RawEvent :=
  (m.find? (fun p => p.1 = k)).map (fun p => p.2)

end InFlight

/-- State of `InMemoryEventQueue`: the ordered backlog and the in-flight
dict. -/
structure InMemoryEventQueue where
  queue : List RawEvent
  processing : InFlight

namespace InMemoryEventQueue

/-- State built by `InMemoryEventQueue.__init__`. -/
def init : InMemoryEventQueue := { queue := [], processing := [] }

/-- Model of `publish`: append to the backlog tail, return `True`. -/
def publish (q : InMemoryEventQueue) (event : RawEvent) :
    Bool × InMemoryEventQueue :=
  (true, { q with queue := q.queue ++ [event] })

/-- One pull of the `consume` generator: if the backlog is non-empty, pop
its head, record it in `processing` under its `event_id`, and yield it;
otherwise the generator breaks (`none`). -/
def consumeStep (q : InMemoryEventQueue) :
    Option (RawEvent × InMemoryEventQueue) :=
  match q.queue with
  | [] => Option.none
  | event :: rest =>
      Option.some (event,
        { queue := rest,
          processing := q.processing.insert event.event_id event })

/-- Model of `ack`: drop the id from the in-flight dict if present; return
`True`. -/
def ack (q : InMemoryEventQueue) (event_id : Option String) :
    Bool × InMemoryEventQueue :=
  if q.processing.contains event_id then
    (true, { q with processing := q.processing.erase event_id })
  else
    (true, q)

/-- Model of `nack`: pop the id from the in-flight dict if present and, when
`requeue` is true, append the stored event to the backlog tail; always
return `True`. -/
def nack (q : InMemoryEventQueue) (event_id : Option String)
    (requeue : Bool) : Bool × InMemoryEventQueue :=
  match q.processing.get? event_id with
  | Option.some event =>
      (true, { queue := if requeue then q.queue ++ [event] else q.queue,
               processing := q.processing.erase event_id })
  | Option.none => (true, q)

/-- The `consume` generator body on an explicit state (`queue`,
`processing`): pop the head, record it in-flight, yield it, and loop;
break when the backlog is empty. -/
def drainFrom : List RawEvent → InFlight → List RawEvent
  | [], _ => []
  | event :: rest, pr => event :: drainFrom rest (pr.insert event.event_id event)

/-- Repeatedly pull `consume` until the backlog is empty, collecting the
yielded events (one full pass of the generator). -/
def drainYields (q : InMemoryEventQueue) : List RawEvent :=
  drainFrom q.queue q.processing

end InMemoryEventQueue

/-- A client-visible queue operation, used to describe interleavings of
calls against one `InMemoryEventQueue`. -/
inductive QOp where
  | publish (e : RawEvent)
  | consume
  | ack (event_id : Option String)
  | nack (event_id : Option String) (requeue : Bool)

/-- Apply one operation: next state plus the event yielded (only a
`consume` pull on a non-empty backlog yields one). -/
def applyOp (q : InMemoryEventQueue) : QOp →
    InMemoryEventQueue × Option RawEvent
  | .publish e => ((q.publish e).2, Option.none)
  | .consume =>
      match q.consumeStep with
      | Option.some (e, q1) => (q1, Option.some e)
      | Option.none => (q, Option.none)
  | .ack k => ((q.ack k).2, Option.none)
  | .nack k rq => ((q.nack k rq).2, Option.none)

/-- Run a list of operations. -/
def runOps (q : InMemoryEventQueue) : List QOp → InMemoryEventQueue
  | [] => q
  | op :: ops => runOps (applyOp q op).1 ops

/-- The events `consume` yields along a list of operations. -/
def yields (q : InMemoryEventQueue) : List QOp → List RawEvent
  | [] => []
  | op :: ops =>
      match applyOp q op with
      | (q1, Option.some e) => e :: yields q1 ops
      | (q1, Option.none) => yields q1 ops

/-- An operation list with no `consume` pull in it. -/
def noConsume (ops : List QOp) : Prop :=
  ∀ op ∈ ops, op ≠ QOp.consume

/-! ## Structured events (`src/src/models/event.py`)

The dataclass carries dynamically typed fields; date fields and the
alert lead time hold the values the extractor actually stores
(`Optional[datetime]` / `Optional[int]`). -/

/-- The `StructuredEvent` dataclass fields, before `__post_init__` runs. -/
structure StructuredEvent where
  event_id : String
  event_type : PyVal
  title : PyVal
  description : PyVal
  due_date : Option Int
  start_time : Option Int
  end_time : Option Int
  participants : PyVal
  location : PyVal
  priority : PyVal
  source_reference : PyVal
  metadata : PyVal
  alert_before_minutes : Option Int
  is_recurring : PyVal
  recurrence_pattern : PyVal

namespace StructuredEvent

/-- Model of `StructuredEvent.__post_init__`: `None` participants become `[]`,
`None` metadata becomes `{}`, and an unspecified alert lead time
defaults to 15 minutes. -/
def postInit (ev : StructuredEvent) : StructuredEvent :=
  { ev with
    participants :=
      match ev.participants with
      | PyVal.none => PyVal.list []
      | p => p,
    metadata :=
      match ev.metadata with
      | PyVal.none => PyVal.dict []
      | m => m,
    alert_before_minutes :=
      match ev.alert_before_minutes with
      | Option.none => Option.some 15
      | a => a }

end StructuredEvent

/-! ## Data extractor (`src/src/processing/extractor.py`) -/

/-- Python `int(v)` on a value: ints pass through, bools coerce, and a
string goes through the builtin base-10 string conversion `int(str)`,
abstracted as the parameter `intStr` (like `datetime.fromisoformat`,
since its full behaviour — Unicode decimal digits, whitespace
stripping, PEP 515 underscores — is a CPython builtin, not code of this
repository); `None`, datetimes, lists and dicts raise (`Option.none`,
the `TypeError` being caught by the caller). -/
def pyInt? (intStr : String → Option Int) : PyVal → Option Int
  | .int n => Option.some n
  | .bool b => Option.some (if b then 1 else 0)
  | .str s => intStr s
  | _ => Option.none

/-- Model of `DataExtractor._parse_datetime`: `None` stays `None`, a datetime
passes through, a string goes through `datetime.fromisoformat`
(abstracted as the parameter `fromiso`), anything else yields `None`. -/
def parseDatetime (fromiso : String → Option Int) : PyVal → Option Int
  | .dt t => Option.some t
  | .str s => fromiso s
  | _ => Option.none

/-- Python `d[k] = v` on a string-keyed dict: replace in place when the
key exists, otherwise append. -/
def pyInsert (d : List (String × PyVal)) (k : String) (v : PyVal) :
    List (String × PyVal) :=
  if d.any (fun p => p.1 = k) then
    d.map (fun p => if p.1 = k then (k, v) else p)
  else
    d ++ [(k, v)]

/-- Model of `DataExtractor._validate`: raise when the title is falsy, or when
both times are present and start does not strictly precede end. -/
def validate (event : StructuredEvent) : Except String Unit :=
  if !(pyTruthy event.title) then
    Except.error "Event title is required"
  else
    match event.start_time, event.end_time with
    | Option.some st, Option.some et =>
        if st ≥ et then
          Except.error "Start time must be before end time"
        else
          Except.ok ()
    | _, _ => Except.ok ()

/-- The `alert_before_minutes` handling in `DataExtractor.extract`: a
missing key or an explicit `None` stays `None`; any other value goes
through `int(...)`, whose `ValueError`/`TypeError` is caught and turns
the value into `None`. -/
def parseAlert (intStr : String → Option Int) : PyVal → Option Int
  | PyVal.none => Option.none
  | v => pyInt? intStr v

/-- The `metadata` dict literal built by `DataExtractor.extract`:
`llm_extracted` and `extraction_timestamp` followed by the splat of
`normalized.get("metadata", {})` (the non-dict case is rejected before
this is used). -/
def extractMetadata (nowIso : String)
    (normalized : List (String × PyVal)) : List (String × PyVal) :=
  match pyGetD normalized "metadata" (PyVal.dict []) with
  | PyVal.dict extra =>
      extra.foldl (fun d p => pyInsert d p.1 p.2)
        [("llm_extracted", PyVal.bool true),
         ("extraction_timestamp", PyVal.str nowIso)]
  | _ => []

/-- The `StructuredEvent(...)` construction in `DataExtractor.extract`
(the dataclass constructor runs `__post_init__`). -/
def extractBuild (fromiso intStr : String → Option Int)
    (freshId nowIso : String)
    (normalized llm_result : List (String × PyVal)) : StructuredEvent :=
  StructuredEvent.postInit
    { event_id := freshId,
      event_type := pyGetD llm_result "event_type" (PyVal.str "unknown"),
      title := pyGetD llm_result "title" (PyVal.str "Untitled Event"),
      description := pyGet llm_result "description",
      due_date := parseDatetime fromiso (pyGet llm_result "due_date"),
      start_time := parseDatetime fromiso (pyGet llm_result "start_time"),
      end_time := parseDatetime fromiso (pyGet llm_result "end_time"),
      participants := pyGetD llm_result "participants" (PyVal.list []),
      location := pyGet llm_result "location",
      priority := pyGet llm_result "priority",
      source_reference := pyGet normalized "source_id",
      metadata := PyVal.dict (extractMetadata nowIso normalized),
      alert_before_minutes :=
        parseAlert intStr (pyGet llm_result "alert_before_minutes"),
      is_recurring := pyGetD llm_result "is_recurring" (PyVal.bool false),
      recurrence_pattern := pyGet llm_result "recurrence_pattern" }

/-- Model of `DataExtractor.extract`.  External effects are parameters: `fromiso`
is `datetime.fromisoformat`, `intStr` the builtin `int(str)` conversion,
`freshId` the generated `uuid4` string, `nowIso` the
`datetime.now().isoformat()` timestamp.  Raising is modelled as
`Except.error` (a non-mapping `metadata` value makes the `**` splat
raise before the event is built). -/
def extract (fromiso intStr : String → Option Int) (freshId nowIso : String)
    (normalized llm_result : List (String × PyVal)) :
    Except String StructuredEvent :=
  match pyGetD normalized "metadata" (PyVal.dict []) with
  | PyVal.dict _ =>
      match validate
        (extractBuild fromiso intStr freshId nowIso normalized llm_result) with
      | Except.ok _ =>
          Except.ok (extractBuild fromiso intStr freshId nowIso normalized llm_result)
      | Except.error msg => Except.error msg
  | _ => Except.error "TypeError: argument after ** must be a mapping"

/-! ## Orchestrator (`src/src/orchestrator.py`)

The processing loop is embedded as a trace-producing step function over
the queue state.  External collaborators are parameters of `OrchEnv`:
`process` is `processing_engine.process_event` (an exception is
`Except.error`), `providers` the calendar-provider names (their
`create_event` faults are caught per provider and never escalate),
`connectors` the source ids registered in `connector_map`, and `mark`
each connector's `mark_as_processed`. -/

structure OrchEnv where
  process : RawEvent → Except String StructuredEvent
  providers : List String
  connectors : List String
  mark : String → RawEvent → Except String Bool

/-- Python `raw_event.event_id or ""`: the `or` takes the left operand when
it is truthy (a non-empty string), else the right. -/
def pyOrEmpty : Option String → String
  | Option.some s => if s = "" then "" else s
  | Option.none => ""

/-- Observable calls the processing loop makes for one consumed event. -/
inductive Action where
  | processCall (e : RawEvent)
  | sinkCalendar (provider : String) (ev : StructuredEvent)
  | markCall (source : String) (e : RawEvent)
  | ackCall (id : String)
  | nackCall (id : String) (requeue : Bool)

/-- Body of `_processing_loop` for one consumed `raw_event`: process,
fan out to calendar sinks (faults swallowed per provider), mark as
processed in the originating connector when registered, then ack; any
exception from processing or marking lands in the `except` handler,
which nacks with requeue. -/
def processOne (env : OrchEnv) (q : InMemoryEventQueue) (e : RawEvent) :
    InMemoryEventQueue × List Action :=
  match env.process e with
  | Except.error _ =>
      ((q.nack (Option.some (pyOrEmpty e.event_id)) true).2,
       [Action.processCall e,
        Action.nackCall (pyOrEmpty e.event_id) true])
  | Except.ok ev =>
      let sinks := env.providers.map (fun p => Action.sinkCalendar p ev)
      if e.source_id ∈ env.connectors then
        match env.mark e.source_id e with
        | Except.error _ =>
            ((q.nack (Option.some (pyOrEmpty e.event_id)) true).2,
             Action.processCall e :: sinks ++
               [Action.markCall e.source_id e,
                Action.nackCall (pyOrEmpty e.event_id) true])
        | Except.ok _ =>
            ((q.ack (Option.some (pyOrEmpty e.event_id))).2,
             Action.processCall e :: sinks ++
               [Action.markCall e.source_id e,
                Action.ackCall (pyOrEmpty e.event_id)])
      else
        ((q.ack (Option.some (pyOrEmpty e.event_id))).2,
         Action.processCall e :: sinks ++
           [Action.ackCall (pyOrEmpty e.event_id)])

/-- Up to `fuel` iterations of the `async for` body of
`_processing_loop`: pull the next event from `consume` (stopping when
the generator breaks on an empty backlog) and run `processOne` on it. -/
def loopSteps (env : OrchEnv) :
    Nat → InMemoryEventQueue → InMemoryEventQueue × List Action
  | 0, q => (q, [])
  | n + 1, q =>
      match q.consumeStep with
      | Option.none => (q, [])
      | Option.some (e, q1) =>
          let r := processOne env q1 e
          let rest := loopSteps env n r.1
          (rest.1, r.2 ++ rest.2)

/-- The sequential `connect` phase of `SystemOrchestrator.start`: the
loop `for connector in self.connectors: await connector.connect()`
propagates the first failure. -/
def connectAll (connect : String → Except String Unit) :
    List String → Except String Unit
  | [] => Except.ok ()
  | c :: cs =>
      match connect c with
      | Except.ok _ => connectAll connect cs
      | Except.error msg => Except.error msg

/-- Model of `SystemOrchestrator.start` up to the point where ingestion loops are
handed to `asyncio.gather`: when every `connect()` succeeds the
ingestion loop of every configured connector is scheduled; when any
`connect()` raises, `start` propagates the exception and schedules
nothing. -/
def startScheduled (connect : String → Except String Unit)
    (connectors : List String) : Except String (List String) :=
  match connectAll connect connectors with
  | Except.ok _ => Except.ok connectors
  | Except.error msg => Except.error msg

/-! ## Basic lemmas about the in-flight dict and the queue -/

namespace InFlight

theorem mem_of_mem_erase {m : InFlight} {k : Option String}
    {p : Option String × RawEvent} (h : p ∈ erase m k) : p ∈ m :=
  (List.mem_filter.mp h).1

theorem ne_of_mem_erase {m : InFlight} {k : Option String}
    {p : Option String × RawEvent} (h : p ∈ erase m k) : p.1 ≠ k := by
  have := (List.mem_filter.mp h).2
  simpa using this

theorem find?_erase_eq_none (m : InFlight) (k : Option String) :
    List.find? (fun p => p.1 = k) (erase m k) = Option.none := by
  rw [List.find?_eq_none]
  intro p hp
  have h := ne_of_mem_erase hp
  simpa using h

theorem get?_insert_self (m : InFlight) (k : Option String) (e : RawEvent) :
    get? (insert m k e) k = Option.some e := by
  unfold get? insert
  rw [List.find?_append, find?_erase_eq_none]
  simp [List.find?]

theorem contains_erase_self (m : InFlight) (k : Option String) :
    contains (erase m k) k = false := by
  unfold contains
  rw [List.any_eq_false]
  intro p hp
  have h := ne_of_mem_erase hp
  simpa using h

theorem get?_eq_none_of_contains_false {m : InFlight} {k : Option String}
    (h : contains m k = false) : get? m k = Option.none := by
  unfold contains at h
  unfold get?
  rw [List.find?_eq_none.mpr]
  · rfl
  · intro p hp
    rw [List.any_eq_false] at h
    exact h p hp

theorem get?_erase_self (m : InFlight) (k : Option String) :
    get? (erase m k) k = Option.none :=
  get?_eq_none_of_contains_false (contains_erase_self m k)

theorem get?_erase_ne (m : InFlight) {k k2 : Option String}
    (h : k ≠ k2) : get? (erase m k) k2 = get? m k2 := by
  unfold get? erase
  induction m with
  | nil => rfl
  | cons p m ih =>
      by_cases hp : p.1 = k
      · rw [List.filter_cons_of_neg (by simp [hp])]
        rw [List.find?_cons_of_neg m (by simp only [decide_eq_true_eq]; rw [hp]; exact h)]
        exact ih
      · rw [List.filter_cons_of_pos (by simp [hp])]
        by_cases hp2 : p.1 = k2
        · rw [List.find?_cons_of_pos _ (by simp [hp2]),
            List.find?_cons_of_pos _ (by simp [hp2])]
        · rw [List.find?_cons_of_neg _ (by simp [hp2]),
            List.find?_cons_of_neg _ (by simp [hp2])]
          exact ih

theorem exists_mem_of_get?_eq_some {m : InFlight} {k : Option String}
    {e : RawEvent} (h : get? m k = Option.some e) :
    ∃ p ∈ m, p.1 = k ∧ p.2 = e := by
  unfold get? at h
  obtain ⟨p, hfind, hmap⟩ := Option.map_eq_some'.mp h
  refine ⟨p, List.mem_of_find?_eq_some hfind, ?_, hmap⟩
  have := List.find?_some hfind
  simpa using this

end InFlight

namespace InMemoryEventQueue

/-- The `ack` operation never touches the backlog. -/
theorem ack_queue (q : InMemoryEventQueue) (k : Option String) :
    (q.ack k).2.queue = q.queue := by
  unfold ack
  split <;> rfl

/-- The `ack` operation always reports success. -/
theorem ack_fst (q : InMemoryEventQueue) (k : Option String) :
    (q.ack k).1 = true := by
  unfold ack
  split <;> rfl

/-- The `nack` operation always reports success. -/
theorem nack_fst (q : InMemoryEventQueue) (k : Option String) (rq : Bool) :
    (q.nack k rq).1 = true := by
  unfold nack
  split <;> rfl

/-- The `nack` operation only ever appends to the backlog. -/
theorem nack_queue_extends (q : InMemoryEventQueue) (k : Option String)
    (rq : Bool) : ∃ d, (q.nack k rq).2.queue = q.queue ++ d := by
  unfold nack
  split
  · cases rq
    · exact ⟨[], by simp⟩
    · next e _ => exact ⟨[e], by simp⟩
  · exact ⟨[], by simp⟩

/-- A full pass of the `consume` generator yields exactly the backlog,
front to back. -/
theorem drainYields_eq_queue (q : InMemoryEventQueue) :
    q.drainYields = q.queue := by
  unfold drainYields
  generalize q.queue = l
  generalize q.processing = pr
  induction l generalizing pr with
  | nil => rfl
  | cons e rest ih => simp [drainFrom, ih]

end InMemoryEventQueue

/-- Running `runOps` distributes over list append. -/
theorem runOps_append (q : InMemoryEventQueue) (a b : List QOp) :
    runOps q (a ++ b) = runOps (runOps q a) b := by
  induction a generalizing q with
  | nil => rfl
  | cons op a ih => simp [runOps, ih]

/-- Any non-`consume` operation leaves the backlog as a prefix of the
new backlog. -/
theorem applyOp_queue_extends (q : InMemoryEventQueue) (op : QOp)
    (h : op ≠ QOp.consume) :
    ∃ d, (applyOp q op).1.queue = q.queue ++ d := by
  cases op with
  | publish e => exact ⟨[e], rfl⟩
  | consume => exact absurd rfl h
  | ack k =>
      exact ⟨[], by simp [applyOp, InMemoryEventQueue.ack_queue]⟩
  | nack k rq =>
      simpa [applyOp] using q.nack_queue_extends k rq

/-- Running consume-free operations leaves the backlog as a prefix of
the final backlog. -/
theorem runOps_queue_extends (ops : List QOp) (q : InMemoryEventQueue)
    (h : noConsume ops) :
    ∃ d, (runOps q ops).queue = q.queue ++ d := by
  induction ops generalizing q with
  | nil => exact ⟨[], by simp [runOps]⟩
  | cons op ops ih =>
      have hop : op ≠ QOp.consume := h op (List.mem_cons_self op ops)
      have hrest : noConsume ops := fun o ho => h o (List.mem_cons_of_mem op ho)
      obtain ⟨d1, hd1⟩ := applyOp_queue_extends q op hop
      obtain ⟨d2, hd2⟩ := ih (applyOp q op).1 hrest
      exact ⟨d1 ++ d2, by simp [runOps, hd2, hd1]⟩

/-- No event with id `k` is pending anywhere in the queue state: neither
in the backlog nor among the in-flight values. -/
def idClear (q : InMemoryEventQueue) (k : Option String) : Prop :=
  (∀ x ∈ q.queue, x.event_id ≠ k) ∧ (∀ p ∈ q.processing, p.2.event_id ≠ k)

/-- One queue operation that does not publish an event with id `k`
preserves `idClear` and cannot yield an event with id `k`. -/
theorem applyOp_idClear {q : InMemoryEventQueue} {k : Option String} {op : QOp}
    (hq : idClear q k) (hop : ∀ e, op = QOp.publish e → e.event_id ≠ k) :
    idClear (applyOp q op).1 k ∧
      (∀ e, (applyOp q op).2 = Option.some e → e.event_id ≠ k) := by
  obtain ⟨hqu, hpr⟩ := hq
  cases op with
  | publish e =>
      refine ⟨⟨?_, hpr⟩, by intro x hx; cases hx⟩
      intro x hx
      rcases List.mem_append.mp hx with h | h
      · exact hqu x h
      · rw [List.mem_singleton] at h
        subst h
        exact hop x rfl
  | consume =>
      cases hq2 : q.queue with
      | nil =>
          have hcs : q.consumeStep = Option.none := by
            unfold InMemoryEventQueue.consumeStep
            rw [hq2]
          simp only [applyOp, hcs]
          exact ⟨⟨hqu, hpr⟩, by intro e he; cases he⟩
      | cons a rest =>
          have hcs : q.consumeStep = Option.some (a,
              { queue := rest, processing := q.processing.insert a.event_id a }) := by
            unfold InMemoryEventQueue.consumeStep
            rw [hq2]
          have ha : a ∈ q.queue := by rw [hq2]; exact List.mem_cons_self a rest
          simp only [applyOp, hcs]
          refine ⟨⟨?_, ?_⟩, ?_⟩
          · intro x hx
            exact hqu x (by rw [hq2]; exact List.mem_cons_of_mem a hx)
          · intro p hp
            rcases List.mem_append.mp hp with h | h
            · exact hpr p (InFlight.mem_of_mem_erase h)
            · rw [List.mem_singleton] at h
              subst h
              exact hqu a ha
          · intro e he
            cases he
            exact hqu a ha
  | ack k2 =>
      refine ⟨⟨?_, ?_⟩, by intro e he; cases he⟩
      · intro x hx
        rw [applyOp, InMemoryEventQueue.ack_queue] at hx
        exact hqu x hx
      · intro p hp
        simp only [applyOp, InMemoryEventQueue.ack] at hp
        split at hp
        · exact hpr p (InFlight.mem_of_mem_erase hp)
        · exact hpr p hp
  | nack k2 rq =>
      simp only [applyOp, InMemoryEventQueue.nack]
      cases hg : q.processing.get? k2 with
      | none =>
          simp only [hg]
          exact ⟨⟨hqu, hpr⟩, by intro e he; cases he⟩
      | some ev =>
          obtain ⟨p, hpmem, _, hp2⟩ := InFlight.exists_mem_of_get?_eq_some hg
          have hev : ev.event_id ≠ k := by rw [← hp2]; exact hpr p hpmem
          simp only [hg]
          refine ⟨⟨?_, ?_⟩, by intro e he; cases he⟩
          · intro x hx
            cases rq with
            | false => exact hqu x hx
            | true =>
                rcases List.mem_append.mp hx with h | h
                · exact hqu x h
                · rw [List.mem_singleton] at h
                  subst h
                  exact hev
          · intro p2 hp2m
            exact hpr p2 (InFlight.mem_of_mem_erase hp2m)

/-- Along any operation sequence that never publishes an event with id
`k`, a state with `idClear` never yields an event with id `k` from
`consume`. -/
theorem yields_all_ne {k : Option String} (ops : List QOp) :
    ∀ q : InMemoryEventQueue, idClear q k →
      (∀ op ∈ ops, ∀ e, op = QOp.publish e → e.event_id ≠ k) →
      ∀ x ∈ yields q ops, x.event_id ≠ k := by
  induction ops with
  | nil => intro q _ _ x hx; cases hx
  | cons op ops ih =>
      intro q hq hops x hx
      have hstep := applyOp_idClear hq
        (fun e he => hops op (List.mem_cons_self op ops) e he)
      have hrest : ∀ op2 ∈ ops, ∀ e, op2 = QOp.publish e → e.event_id ≠ k :=
        fun op2 h2 => hops op2 (List.mem_cons_of_mem op h2)
      rcases happly : applyOp q op with ⟨q1, y⟩
      rw [happly] at hstep
      cases y with
      | none =>
          rw [yields, happly] at hx
          exact ih q1 hstep.1 hrest x hx
      | some e =>
          rw [yields, happly] at hx
          rcases List.mem_cons.mp hx with h | h
          · subst h
            exact hstep.2 x rfl
          · exact ih q1 hstep.1 hrest x h

/-- Sample raw event "src_1" used to instantiate theorems. -/
def eSrc1 : RawEvent :=
  { source_id := "mail", timestamp := 0,
    raw_payload := [("body", PyVal.str "Meeting at 10am")],
    source_metadata := [("type", PyVal.str "email")],
    event_id := Option.some "src_1" }

/-- Sample raw event "src_2" used to instantiate theorems. -/
def eSrc2 : RawEvent :=
  { source_id := "mail", timestamp := 1,
    raw_payload := [("body", PyVal.str "Dentist tomorrow")],
    source_metadata := [("type", PyVal.str "email")],
    event_id := Option.some "src_2" }

/-- Sample raw event with a `None` id used to instantiate theorems. -/
def eNoId : RawEvent :=
  { source_id := "mail", timestamp := 2,
    raw_payload := [("body", PyVal.str "PTA meeting")],
    source_metadata := [("type", PyVal.str "email")],
    event_id := Option.none }

/-- Sample structured event used to instantiate processing-loop
theorems. -/
def okSE : StructuredEvent :=
  { event_id := "uuid-1",
    event_type := PyVal.str "meeting",
    title := PyVal.str "Meeting",
    description := PyVal.none,
    due_date := Option.none,
    start_time := Option.some 10,
    end_time := Option.some 20,
    participants := PyVal.list [],
    location := PyVal.none,
    priority := PyVal.none,
    source_reference := PyVal.str "mail",
    metadata := PyVal.dict [],
    alert_before_minutes := Option.some 15,
    is_recurring := PyVal.bool false,
    recurrence_pattern := PyVal.none }

theorem getElem?_append_cons (l1 : List RawEvent) (x : RawEvent)
    (l2 : List RawEvent) : (l1 ++ x :: l2)[l1.length]? = Option.some x := by
  rw [List.getElem?_append_right (le_refl _)]
  simp

/-- C1: the queue is FIFO.  First conjunct: for two events published in
that order with only consume-free operations around them, a full
`consume` pass yields the first strictly before the second.  Second
conjunct: each `consume` pull pops the backlog head and records it in
the in-flight dict under its `event_id`. -/
theorem c1_queue_fifo (q0 : InMemoryEventQueue) (e1 e2 : RawEvent)
    (ops1 ops2 : List QOp) (h1 : noConsume ops1) (h2 : noConsume ops2) :
    (∃ i j : Nat, i < j ∧
      (runOps q0 (ops1 ++ QOp.publish e1 :: ops2 ++ [QOp.publish e2])).drainYields[i]? =
        Option.some e1 ∧
      (runOps q0 (ops1 ++ QOp.publish e1 :: ops2 ++ [QOp.publish e2])).drainYields[j]? =
        Option.some e2) ∧
    (∀ (q : InMemoryEventQueue) (e : RawEvent) (rest : List RawEvent),
      q.queue = e :: rest →
      q.consumeStep = Option.some (e,
        { queue := rest, processing := q.processing.insert e.event_id e })) := by
  constructor
  · obtain ⟨d1, hd1⟩ := runOps_queue_extends ops1 q0 h1
    obtain ⟨d2, hd2⟩ := runOps_queue_extends ops2
      (applyOp (runOps q0 ops1) (QOp.publish e1)).1 h2
    have hsplit :
        runOps q0 (ops1 ++ QOp.publish e1 :: ops2 ++ [QOp.publish e2]) =
        (applyOp (runOps (applyOp (runOps q0 ops1) (QOp.publish e1)).1 ops2)
          (QOp.publish e2)).1 := by
      rw [runOps_append, runOps_append]
      rfl
    have hqB : (applyOp (runOps q0 ops1) (QOp.publish e1)).1.queue =
        (q0.queue ++ d1) ++ [e1] := by
      show (runOps q0 ops1).queue ++ [e1] = _
      rw [hd1]
    have hq : (runOps q0 (ops1 ++ QOp.publish e1 :: ops2 ++ [QOp.publish e2])).queue =
        ((q0.queue ++ d1) ++ e1 :: d2) ++ e2 :: [] := by
      rw [hsplit]
      show (runOps (applyOp (runOps q0 ops1) (QOp.publish e1)).1 ops2).queue ++ [e2] = _
      rw [hd2, hqB]
      simp
    refine ⟨(q0.queue ++ d1).length, ((q0.queue ++ d1) ++ e1 :: d2).length,
      by simp, ?_, ?_⟩
    · rw [InMemoryEventQueue.drainYields_eq_queue, hq]
      have hassoc : ((q0.queue ++ d1) ++ e1 :: d2) ++ e2 :: [] =
          (q0.queue ++ d1) ++ e1 :: (d2 ++ e2 :: []) := by simp
      rw [hassoc]
      exact getElem?_append_cons _ e1 _
    · rw [InMemoryEventQueue.drainYields_eq_queue, hq]
      exact getElem?_append_cons _ e2 _
  · intro q e rest h
    unfold InMemoryEventQueue.consumeStep
    rw [h]

/-- C1 witness: concrete run with an ack before the first publish and a
second publish in between. -/
theorem c1_queue_fifo_witness :
    noConsume [QOp.ack (Option.some "ghost")] ∧
    noConsume [QOp.publish eNoId] ∧
    (∃ i j : Nat, i < j ∧
      (runOps InMemoryEventQueue.init
        ([QOp.ack (Option.some "ghost")] ++ QOp.publish eSrc1 ::
          [QOp.publish eNoId] ++ [QOp.publish eSrc2])).drainYields[i]? =
        Option.some eSrc1 ∧
      (runOps InMemoryEventQueue.init
        ([QOp.ack (Option.some "ghost")] ++ QOp.publish eSrc1 ::
          [QOp.publish eNoId] ++ [QOp.publish eSrc2])).drainYields[j]? =
        Option.some eSrc2) := by
  have hn1 : noConsume [QOp.ack (Option.some "ghost")] := by
    intro op hop
    rw [List.mem_singleton] at hop
    subst hop
    intro h
    cases h
  have hn2 : noConsume [QOp.publish eNoId] := by
    intro op hop
    rw [List.mem_singleton] at hop
    subst hop
    intro h
    cases h
  exact ⟨hn1, hn2,
    (c1_queue_fifo InMemoryEventQueue.init eSrc1 eSrc2
      [QOp.ack (Option.some "ghost")] [QOp.publish eNoId] hn1 hn2).1⟩

/-- C2: `ack` and `nack` on an id that is not in-flight return success
and leave the whole queue state unchanged; and after a consume of `e`
followed by `ack e.event_id`, a subsequent `nack e.event_id` is a
successful no-op. -/
theorem c2_ack_nack_unknown_noop :
    (∀ (q : InMemoryEventQueue) (id : Option String) (rq : Bool),
      q.processing.contains id = false →
      q.ack id = (true, q) ∧ q.nack id rq = (true, q)) ∧
    (∀ (q q1 : InMemoryEventQueue) (e : RawEvent) (rq : Bool),
      q.consumeStep = Option.some (e, q1) →
      (q1.ack e.event_id).1 = true ∧
      (q1.ack e.event_id).2.nack e.event_id rq =
        (true, (q1.ack e.event_id).2)) := by
  constructor
  · intro q id rq h
    constructor
    · unfold InMemoryEventQueue.ack
      rw [h]
      simp
    · unfold InMemoryEventQueue.nack
      rw [InFlight.get?_eq_none_of_contains_false h]
  · intro q q1 e rq hc
    have hq1 : q1.processing = q.processing.insert e.event_id e := by
      unfold InMemoryEventQueue.consumeStep at hc
      cases hq2 : q.queue with
      | nil => rw [hq2] at hc; cases hc
      | cons a rest =>
          rw [hq2] at hc
          cases hc
          rfl
    refine ⟨InMemoryEventQueue.ack_fst q1 e.event_id, ?_⟩
    have hgone : (q1.ack e.event_id).2.processing.contains e.event_id = false := by
      unfold InMemoryEventQueue.ack
      split
      · exact InFlight.contains_erase_self q1.processing e.event_id
      · next h =>
          rw [Bool.not_eq_true] at h
          exact h
    unfold InMemoryEventQueue.nack
    rw [InFlight.get?_eq_none_of_contains_false hgone]

/-- C2 witness: ack/nack of a never-seen id on the empty queue, and the
consume-ack-nack sequence on a one-event queue. -/
theorem c2_ack_nack_unknown_noop_witness :
    InMemoryEventQueue.init.processing.contains (Option.some "ghost") = false ∧
    (InMemoryEventQueue.init.ack (Option.some "ghost") =
        (true, InMemoryEventQueue.init) ∧
      InMemoryEventQueue.init.nack (Option.some "ghost") false =
        (true, InMemoryEventQueue.init)) ∧
    ({ queue := [eSrc1], processing := [] } : InMemoryEventQueue).consumeStep =
      Option.some (eSrc1,
        { queue := [], processing := [(Option.some "src_1", eSrc1)] }) ∧
    (({ queue := [], processing := [(Option.some "src_1", eSrc1)] } :
        InMemoryEventQueue).ack eSrc1.event_id).2.nack eSrc1.event_id true =
      (true, (({ queue := [], processing := [(Option.some "src_1", eSrc1)] } :
        InMemoryEventQueue).ack eSrc1.event_id).2) :=
  ⟨rfl,
   (c2_ack_nack_unknown_noop.1 InMemoryEventQueue.init (Option.some "ghost")
      false rfl),
   rfl,
   ((c2_ack_nack_unknown_noop.2 { queue := [eSrc1], processing := [] }
      { queue := [], processing := [(Option.some "src_1", eSrc1)] }
      eSrc1 true rfl).2)⟩

/-- C3: after `consume` yields `e`, `nack(e.event_id, requeue=true)`
succeeds, removes the id from the in-flight dict, re-appends the
original event to the backlog tail, and a subsequent full consume pass
yields an event with the same id and equal payload. -/
theorem c3_nack_requeue_at_least_once (q q1 : InMemoryEventQueue)
    (e : RawEvent) (hc : q.consumeStep = Option.some (e, q1)) :
    ∃ q2, q1.nack e.event_id true = (true, q2) ∧
      q2.processing.contains e.event_id = false ∧
      q2.queue = q1.queue ++ [e] ∧
      ∃ x ∈ q2.drainYields, x.event_id = e.event_id ∧
        x.raw_payload = e.raw_payload := by
  have hq1 : q1.processing = q.processing.insert e.event_id e := by
    unfold InMemoryEventQueue.consumeStep at hc
    cases hq2 : q.queue with
    | nil => rw [hq2] at hc; cases hc
    | cons a rest =>
        rw [hq2] at hc
        cases hc
        rfl
  have hget : q1.processing.get? e.event_id = Option.some e := by
    rw [hq1]
    exact InFlight.get?_insert_self q.processing e.event_id e
  refine ⟨{ queue := q1.queue ++ [e],
            processing := q1.processing.erase e.event_id }, ?_, ?_, rfl, ?_⟩
  · unfold InMemoryEventQueue.nack
    rw [hget]
    rfl
  · exact InFlight.contains_erase_self q1.processing e.event_id
  · refine ⟨e, ?_, rfl, rfl⟩
    rw [InMemoryEventQueue.drainYields_eq_queue]
    exact List.mem_append_right q1.queue (List.mem_singleton.mpr rfl)

/-- C3 witness: consume the only event of a one-event queue, then nack
it with requeue. -/
theorem c3_nack_requeue_at_least_once_witness :
    ({ queue := [eSrc1], processing := [] } : InMemoryEventQueue).consumeStep =
      Option.some (eSrc1,
        { queue := [], processing := [(Option.some "src_1", eSrc1)] }) ∧
    ∃ q2, ({ queue := [], processing := [(Option.some "src_1", eSrc1)] } :
        InMemoryEventQueue).nack eSrc1.event_id true = (true, q2) ∧
      q2.processing.contains eSrc1.event_id = false ∧
      q2.queue = [] ++ [eSrc1] ∧
      ∃ x ∈ q2.drainYields, x.event_id = eSrc1.event_id ∧
        x.raw_payload = eSrc1.raw_payload :=
  ⟨rfl, c3_nack_requeue_at_least_once
    { queue := [eSrc1], processing := [] }
    { queue := [], processing := [(Option.some "src_1", eSrc1)] } eSrc1 rfl⟩

/-- C4: after `consume` yields `e` and a `nack(e.event_id, requeue=false)`,
provided no other copy of that id is pending and no later operation
publishes that id again, no later `consume` ever yields an event with
`e.event_id`.  (`hkeys` records the queue invariant that in-flight
entries are keyed by their event's own id.) -/
theorem c4_nack_drop_permanent (q q1 : InMemoryEventQueue) (e : RawEvent)
    (ops : List QOp)
    (hc : q.consumeStep = Option.some (e, q1))
    (hkeys : ∀ p ∈ q.processing, p.1 = p.2.event_id)
    (hqueue : ∀ x ∈ q1.queue, x.event_id ≠ e.event_id)
    (hops : ∀ op ∈ ops, ∀ x, op = QOp.publish x → x.event_id ≠ e.event_id) :
    (q1.nack e.event_id false).1 = true ∧
    ∀ x ∈ yields (q1.nack e.event_id false).2 ops,
      x.event_id ≠ e.event_id := by
  have hq1p : q1.processing = q.processing.insert e.event_id e := by
    unfold InMemoryEventQueue.consumeStep at hc
    cases hq2 : q.queue with
    | nil => rw [hq2] at hc; cases hc
    | cons a rest =>
        rw [hq2] at hc
        cases hc
        rfl
  have hq1q : q1.queue = q.queue.tail := by
    unfold InMemoryEventQueue.consumeStep at hc
    cases hq2 : q.queue with
    | nil => rw [hq2] at hc; cases hc
    | cons a rest =>
        rw [hq2] at hc
        cases hc
        rfl
  have hget : q1.processing.get? e.event_id = Option.some e := by
    rw [hq1p]
    exact InFlight.get?_insert_self q.processing e.event_id e
  have hnack : q1.nack e.event_id false =
      (true, { queue := q1.queue,
               processing := q1.processing.erase e.event_id }) := by
    unfold InMemoryEventQueue.nack
    rw [hget]
    rfl
  refine ⟨by rw [hnack], ?_⟩
  rw [hnack]
  apply yields_all_ne ops _ _ hops
  constructor
  · exact hqueue
  · intro p hp
    have hmem := InFlight.mem_of_mem_erase hp
    have hne := InFlight.ne_of_mem_erase hp
    rw [hq1p] at hmem
    rcases List.mem_append.mp hmem with h | h
    · have hm2 := InFlight.mem_of_mem_erase h
      rw [← hkeys p hm2]
      exact hne
    · rw [List.mem_singleton] at h
      subst h
      exact absurd rfl hne

/-- C4 witness: consume "src_1" from a one-event queue, drop it, then
publish "src_2" and consume it — "src_1" never reappears. -/
theorem c4_nack_drop_permanent_witness :
    ({ queue := [eSrc1], processing := [] } : InMemoryEventQueue).consumeStep =
      Option.some (eSrc1,
        { queue := [], processing := [(Option.some "src_1", eSrc1)] }) ∧
    (∀ x ∈ yields
      (({ queue := [], processing := [(Option.some "src_1", eSrc1)] } :
        InMemoryEventQueue).nack eSrc1.event_id false).2
      [QOp.publish eSrc2, QOp.consume],
      x.event_id ≠ eSrc1.event_id) := by
  have hops : ∀ op ∈ [QOp.publish eSrc2, QOp.consume], ∀ x,
      op = QOp.publish x → x.event_id ≠ eSrc1.event_id := by
    intro op hop x hx
    rcases List.mem_cons.mp hop with h | h
    · subst h
      cases hx
      intro habs
      simp [eSrc2, eSrc1] at habs
    · rw [List.mem_singleton] at h
      subst h
      cases hx
  refine ⟨rfl, ?_⟩
  exact (c4_nack_drop_permanent { queue := [eSrc1], processing := [] }
    { queue := [], processing := [(Option.some "src_1", eSrc1)] } eSrc1
    [QOp.publish eSrc2, QOp.consume] rfl
    (by intro p hp; cases hp)
    (by intro x hx; cases hx)
    hops).2

/-! ## Processing-loop claims -/

/-- Derived form of `consumeStep` success: the state after the pull. -/
theorem consumeStep_processing {q q1 : InMemoryEventQueue} {e : RawEvent}
    (hc : q.consumeStep = Option.some (e, q1)) :
    q1.processing = q.processing.insert e.event_id e := by
  unfold InMemoryEventQueue.consumeStep at hc
  cases hq2 : q.queue with
  | nil => rw [hq2] at hc; cases hc
  | cons a rest =>
      rw [hq2] at hc
      cases hc
      rfl

/-- C5: when the extraction step raises for a consumed event, the loop
body nacks it with requeue and makes no ack call, and the loop then
continues with the next item from the queue. -/
theorem c5_extraction_failure_nacks_and_continues (env : OrchEnv)
    (q q1 : InMemoryEventQueue) (e : RawEvent) (msg : String) (n : Nat)
    (hc : q.consumeStep = Option.some (e, q1))
    (hfail : env.process e = Except.error msg) :
    processOne env q1 e =
      ((q1.nack (Option.some (pyOrEmpty e.event_id)) true).2,
       [Action.processCall e, Action.nackCall (pyOrEmpty e.event_id) true]) ∧
    (∀ id, Action.ackCall id ∉ (processOne env q1 e).2) ∧
    loopSteps env (n + 1) q =
      ((loopSteps env n (processOne env q1 e).1).1,
       (processOne env q1 e).2 ++ (loopSteps env n (processOne env q1 e).1).2) := by
  have hp : processOne env q1 e =
      ((q1.nack (Option.some (pyOrEmpty e.event_id)) true).2,
       [Action.processCall e, Action.nackCall (pyOrEmpty e.event_id) true]) := by
    unfold processOne
    rw [hfail]
  refine ⟨hp, ?_, ?_⟩
  · intro id hmem
    rw [hp] at hmem
    simp at hmem
  · rw [loopSteps, hc]

/-- C5 witness: a one-event queue whose extraction always fails. -/
theorem c5_extraction_failure_nacks_and_continues_witness :
    ({ queue := [eSrc2], processing := [] } : InMemoryEventQueue).consumeStep =
      Option.some (eSrc2,
        { queue := [], processing := [(Option.some "src_2", eSrc2)] }) ∧
    ({ process := fun _ => Except.error "boom", providers := [],
       connectors := ["mail"], mark := fun _ _ => Except.ok true } :
      OrchEnv).process eSrc2 = Except.error "boom" ∧
    (∀ id, Action.ackCall id ∉
      (processOne
        { process := fun _ => Except.error "boom", providers := [],
          connectors := ["mail"], mark := fun _ _ => Except.ok true }
        { queue := [], processing := [(Option.some "src_2", eSrc2)] }
        eSrc2).2) :=
  ⟨rfl, rfl,
   (c5_extraction_failure_nacks_and_continues
      { process := fun _ => Except.error "boom", providers := [],
        connectors := ["mail"], mark := fun _ _ => Except.ok true }
      { queue := [eSrc2], processing := [] }
      { queue := [], processing := [(Option.some "src_2", eSrc2)] }
      eSrc2 "boom" 0 rfl rfl).2.1⟩

/-- C6: when processing succeeds and the originating connector is
registered (and its marking hook does not raise), the loop body runs
`processCall`, then the calendar sink fan-out, then exactly one
`mark_as_processed` call, then the ack — in that order. -/
theorem c6_mark_once_after_sinks_before_ack (env : OrchEnv)
    (q : InMemoryEventQueue) (e : RawEvent) (ev : StructuredEvent) (b : Bool)
    (hok : env.process e = Except.ok ev)
    (hconn : e.source_id ∈ env.connectors)
    (hmark : env.mark e.source_id e = Except.ok b) :
    processOne env q e =
      ((q.ack (Option.some (pyOrEmpty e.event_id))).2,
       Action.processCall e ::
         env.providers.map (fun p => Action.sinkCalendar p ev) ++
         [Action.markCall e.source_id e, Action.ackCall (pyOrEmpty e.event_id)]) ∧
    (processOne env q e).2.countP
      (fun a => match a with | Action.markCall _ _ => true | _ => false) = 1 := by
  have hp : processOne env q e =
      ((q.ack (Option.some (pyOrEmpty e.event_id))).2,
       Action.processCall e ::
         env.providers.map (fun p => Action.sinkCalendar p ev) ++
         [Action.markCall e.source_id e, Action.ackCall (pyOrEmpty e.event_id)]) := by
    simp only [processOne, hok]
    rw [if_pos hconn, hmark]
  refine ⟨hp, ?_⟩
  rw [hp]
  have hsinks : (env.providers.map (fun p => Action.sinkCalendar p ev)).countP
      (fun a => match a with | Action.markCall _ _ => true | _ => false) = 0 := by
    rw [List.countP_eq_zero]
    intro a ha
    obtain ⟨p, _, hpa⟩ := List.mem_map.mp ha
    rw [← hpa]
    simp
  simp [List.countP_cons, List.countP_append, hsinks, List.countP_nil]

/-- C6 witness: one provider, one registered connector, successful
processing of "src_1". -/
theorem c6_mark_once_after_sinks_before_ack_witness :
    "mail" ∈ ["mail"] ∧
    (processOne
      { process := fun _ => Except.ok okSE, providers := ["primary"],
        connectors := ["mail"], mark := fun _ _ => Except.ok true }
      { queue := [], processing := [(Option.some "src_1", eSrc1)] }
      eSrc1).2.countP
      (fun a => match a with | Action.markCall _ _ => true | _ => false) = 1 :=
  ⟨List.mem_singleton.mpr rfl,
   (c6_mark_once_after_sinks_before_ack
      { process := fun _ => Except.ok okSE, providers := ["primary"],
        connectors := ["mail"], mark := fun _ _ => Except.ok true }
      { queue := [], processing := [(Option.some "src_1", eSrc1)] }
      eSrc1 okSE true rfl (List.mem_singleton.mpr rfl) rfl).2⟩

/-- C10: a consumed event whose `event_id` is Python `None` is stored
in-flight under the key `None`; on the success path the loop acks with
the string `""`, which succeeds but leaves the `None`-keyed entry in the
in-flight dict. -/
theorem c10_none_id_never_leaves_in_flight (env : OrchEnv)
    (q q1 : InMemoryEventQueue) (e : RawEvent) (ev : StructuredEvent) (b : Bool)
    (hid : e.event_id = Option.none)
    (hc : q.consumeStep = Option.some (e, q1))
    (hok : env.process e = Except.ok ev)
    (hmark : e.source_id ∈ env.connectors → env.mark e.source_id e = Except.ok b) :
    q1.processing.get? Option.none = Option.some e ∧
    Action.ackCall "" ∈ (processOne env q1 e).2 ∧
    (processOne env q1 e).1.processing.get? Option.none = Option.some e := by
  have hget : q1.processing.get? Option.none = Option.some e := by
    rw [consumeStep_processing hc, ← hid]
    exact InFlight.get?_insert_self q.processing e.event_id e
  have hempty : pyOrEmpty e.event_id = "" := by rw [hid]; rfl
  have hack : (q1.ack (Option.some "")).2.processing.get? Option.none =
      Option.some e := by
    unfold InMemoryEventQueue.ack
    split
    · exact (InFlight.get?_erase_ne q1.processing
        (Option.some_ne_none "")).trans hget
    · exact hget
  refine ⟨hget, ?_, ?_⟩
  · simp only [processOne, hok]
    by_cases hcm : e.source_id ∈ env.connectors
    · rw [if_pos hcm, hmark hcm, hempty]
      simp
    · rw [if_neg hcm, hempty]
      simp
  · simp only [processOne, hok]
    by_cases hcm : e.source_id ∈ env.connectors
    · rw [if_pos hcm, hmark hcm, hempty]
      exact hack
    · rw [if_neg hcm, hempty]
      exact hack

/-- C10 witness: consume the `None`-id event, process it successfully,
and observe the stuck in-flight entry. -/
theorem c10_none_id_never_leaves_in_flight_witness :
    eNoId.event_id = Option.none ∧
    ({ queue := [eNoId], processing := [] } : InMemoryEventQueue).consumeStep =
      Option.some (eNoId,
        { queue := [], processing := [(Option.none, eNoId)] }) ∧
    (({ queue := [], processing := [(Option.none, eNoId)] } :
        InMemoryEventQueue).processing.get? Option.none = Option.some eNoId ∧
      Action.ackCall "" ∈
        (processOne
          { process := fun _ => Except.ok okSE, providers := ["primary"],
            connectors := ["mail"], mark := fun _ _ => Except.ok true }
          { queue := [], processing := [(Option.none, eNoId)] } eNoId).2 ∧
      (processOne
        { process := fun _ => Except.ok okSE, providers := ["primary"],
          connectors := ["mail"], mark := fun _ _ => Except.ok true }
        { queue := [], processing := [(Option.none, eNoId)] }
        eNoId).1.processing.get? Option.none = Option.some eNoId) :=
  ⟨rfl, rfl,
   c10_none_id_never_leaves_in_flight
     { process := fun _ => Except.ok okSE, providers := ["primary"],
       connectors := ["mail"], mark := fun _ _ => Except.ok true }
     { queue := [eNoId], processing := [] }
     { queue := [], processing := [(Option.none, eNoId)] }
     eNoId okSE true rfl rfl rfl (fun _ => rfl)⟩

/-! ## Startup claim -/

/-- Connect behaviour where connector "A" fails and any other succeeds. -/
def connectFailA : String → Except String Unit :=
  fun s => if s = "A" then Except.error "connection refused" else Except.ok ()

/-- C7 counterexample: with connectors `["A", "B"]` where only `A`'s
`connect()` raises, `start` never reaches `asyncio.gather`, so `B`'s
ingestion loop is not scheduled — refuting the claim that other
connectors' loops still run. -/
theorem c7_counterexample :
    ¬ ∃ scheduled, startScheduled connectFailA ["A", "B"] =
        Except.ok scheduled ∧ "B" ∈ scheduled := by
  intro h
  obtain ⟨l, hl, _⟩ := h
  rw [show startScheduled connectFailA ["A", "B"] =
    Except.error "connection refused" from rfl] at hl
  cases hl

/-- C7 amended: a failure of any connector's `connect()` during startup
aborts `start` entirely — the exception propagates and no connector's
ingestion loop (not even of connectors whose connect succeeded) is
scheduled. -/
theorem c7_connect_failure_aborts_startup
    (connect : String → Except String Unit) (cs : List String)
    (c : String) (msg : String)
    (hc : c ∈ cs) (hfail : connect c = Except.error msg) :
    ∃ m, startScheduled connect cs = Except.error m := by
  suffices h : ∃ m, connectAll connect cs = Except.error m by
    obtain ⟨m, hm⟩ := h
    refine ⟨m, ?_⟩
    unfold startScheduled
    rw [hm]
  induction cs with
  | nil => cases hc
  | cons a cs ih =>
      cases hca : connect a with
      | error m2 =>
          refine ⟨m2, ?_⟩
          unfold connectAll
          rw [hca]
      | ok u =>
          rcases List.mem_cons.mp hc with h | h
          · subst h
            rw [hfail] at hca
            cases hca
          · obtain ⟨m2, hm2⟩ := ih h
            refine ⟨m2, ?_⟩
            unfold connectAll
            rw [hca]
            exact hm2

/-- C7 amended witness: "A" fails to connect, so startup errors out. -/
theorem c7_connect_failure_aborts_startup_witness :
    "A" ∈ ["A", "B"] ∧
    connectFailA "A" = Except.error "connection refused" ∧
    ∃ m, startScheduled connectFailA ["A", "B"] = Except.error m :=
  ⟨List.mem_cons_self "A" ["B"], rfl,
   c7_connect_failure_aborts_startup connectFailA ["A", "B"] "A"
     "connection refused" (List.mem_cons_self "A" ["B"]) rfl⟩

/-! ## Extractor claims -/

/-- What a successful `_validate` guarantees: truthy title, and strict
start-before-end whenever both times are present. -/
theorem validate_ok {ev : StructuredEvent} (h : validate ev = Except.ok ()) :
    pyTruthy ev.title = true ∧
    ∀ st et, ev.start_time = Option.some st → ev.end_time = Option.some et →
      st < et := by
  unfold validate at h
  split at h
  · cases h
  · next hcond =>
      have ht : pyTruthy ev.title = true := by
        simpa using hcond
      refine ⟨ht, ?_⟩
      intro st et hst het
      rw [hst, het] at h
      have h2 : (if st ≥ et then
          (Except.error "Start time must be before end time" :
            Except String Unit)
        else Except.ok ()) = Except.ok () := h
      by_cases hge : st ≥ et
      · rw [if_pos hge] at h2
        cases h2
      · omega

/-- A successful `extract` returns exactly the built event, and that
event passed `_validate`. -/
theorem extract_ok_shape {fromiso intStr : String → Option Int}
    {freshId nowIso : String} {normalized llm_result : List (String × PyVal)}
    {ev : StructuredEvent}
    (h : extract fromiso intStr freshId nowIso normalized llm_result =
      Except.ok ev) :
    ev = extractBuild fromiso intStr freshId nowIso normalized llm_result ∧
    validate ev = Except.ok () := by
  unfold extract at h
  split at h
  · split at h
    · next u hval =>
        cases h
        cases u
        exact ⟨rfl, hval⟩
    · cases h
  · cases h

/-- C8: every `StructuredEvent` that `DataExtractor.extract` returns
carries a truthy (non-empty) title, and whenever both `start_time` and
`end_time` are present, start strictly precedes end; `extract` raises
instead of returning a violating event. -/
theorem c8_extract_title_and_time_window (fromiso intStr : String → Option Int)
    (freshId nowIso : String) (normalized llm_result : List (String × PyVal))
    (ev : StructuredEvent)
    (h : extract fromiso intStr freshId nowIso normalized llm_result =
      Except.ok ev) :
    pyTruthy ev.title = true ∧
    ∀ st et, ev.start_time = Option.some st → ev.end_time = Option.some et →
      st < et :=
  validate_ok (extract_ok_shape h).2

/-- Concrete successful extraction result used as a witness. -/
def c8SampleEvent : StructuredEvent :=
  { event_id := "uuid-1",
    event_type := PyVal.str "unknown",
    title := PyVal.str "Meeting",
    description := PyVal.none,
    due_date := Option.none,
    start_time := Option.some 10,
    end_time := Option.some 20,
    participants := PyVal.list [],
    location := PyVal.none,
    priority := PyVal.none,
    source_reference := PyVal.str "mail",
    metadata := PyVal.dict
      [("llm_extracted", PyVal.bool true),
       ("extraction_timestamp", PyVal.str "t0")],
    alert_before_minutes := Option.some 15,
    is_recurring := PyVal.bool false,
    recurrence_pattern := PyVal.none }

/-- C8 witness: extracting a concrete well-formed LLM result yields an
event with a truthy title and an ordered time window. -/
theorem c8_extract_title_and_time_window_witness :
    extract (fun _ => Option.none) (fun _ => Option.none) "uuid-1" "t0"
      [("source_id", PyVal.str "mail")]
      [("title", PyVal.str "Meeting"), ("start_time", PyVal.dt 10),
       ("end_time", PyVal.dt 20)] = Except.ok c8SampleEvent ∧
    pyTruthy c8SampleEvent.title = true ∧
    ∀ st et, c8SampleEvent.start_time = Option.some st →
      c8SampleEvent.end_time = Option.some et → st < et :=
  ⟨rfl, c8_extract_title_and_time_window (fun _ => Option.none)
    (fun _ => Option.none) "uuid-1" "t0"
    [("source_id", PyVal.str "mail")]
    [("title", PyVal.str "Meeting"), ("start_time", PyVal.dt 10),
     ("end_time", PyVal.dt 20)] c8SampleEvent rfl⟩

/-- C9: the alert lead time defaults to 15 minutes.  First conjunct:
`__post_init__` turns a `None` `alert_before_minutes` into 15.  Second
conjunct, for every realization `intStr` of the builtin `int(str)`
conversion: when the extraction result omits `alert_before_minutes`,
supplies `None`, or supplies a value `int(...)` rejects, any event
`extract` returns carries `alert_before_minutes = 15`. -/
theorem c9_alert_defaults_to_15 :
    (∀ ev : StructuredEvent, ev.alert_before_minutes = Option.none →
      (StructuredEvent.postInit ev).alert_before_minutes = Option.some 15) ∧
    (∀ (fromiso intStr : String → Option Int) (freshId nowIso : String)
       (normalized llm_result : List (String × PyVal)) (ev : StructuredEvent),
      (pyGet llm_result "alert_before_minutes" = PyVal.none ∨
        pyInt? intStr (pyGet llm_result "alert_before_minutes") =
          Option.none) →
      extract fromiso intStr freshId nowIso normalized llm_result =
        Except.ok ev →
      ev.alert_before_minutes = Option.some 15) := by
  constructor
  · intro ev h
    simp [StructuredEvent.postInit, h]
  · intro fromiso intStr freshId nowIso normalized llm_result ev halert h
    have halert0 : parseAlert intStr (pyGet llm_result "alert_before_minutes") =
        Option.none := by
      rcases halert with h1 | h1
      · rw [h1]
        rfl
      · cases hv : pyGet llm_result "alert_before_minutes" with
        | none => rfl
        | str s => rw [hv] at h1; exact h1
        | int n => rw [hv] at h1; exact h1
        | bool b => rw [hv] at h1; exact h1
        | dt t => rw [hv] at h1; exact h1
        | list l => rw [hv] at h1; exact h1
        | dict l => rw [hv] at h1; exact h1
    rw [(extract_ok_shape h).1]
    simp [extractBuild, StructuredEvent.postInit, halert0]

/-- Result of extracting an LLM output whose alert lead time is the
non-integer string "soon". -/
def c9SampleEvent : StructuredEvent :=
  { event_id := "uuid-2",
    event_type := PyVal.str "unknown",
    title := PyVal.str "Dinner",
    description := PyVal.none,
    due_date := Option.none,
    start_time := Option.none,
    end_time := Option.none,
    participants := PyVal.list [],
    location := PyVal.none,
    priority := PyVal.none,
    source_reference := PyVal.str "mail",
    metadata := PyVal.dict
      [("llm_extracted", PyVal.bool true),
       ("extraction_timestamp", PyVal.str "t1")],
    alert_before_minutes := Option.some 15,
    is_recurring := PyVal.bool false,
    recurrence_pattern := PyVal.none }

/-- C9 witness: a `None` alert on a direct construction, and an
extraction whose LLM result supplies the non-integer alert "soon". -/
theorem c9_alert_defaults_to_15_witness :
    (StructuredEvent.postInit { c9SampleEvent with
      alert_before_minutes := Option.none }).alert_before_minutes =
        Option.some 15 ∧
    pyInt? (fun _ => Option.none) (pyGet [("title", PyVal.str "Dinner"),
      ("alert_before_minutes", PyVal.str "soon")] "alert_before_minutes") =
        Option.none ∧
    extract (fun _ => Option.none) (fun _ => Option.none) "uuid-2" "t1"
      [("source_id", PyVal.str "mail")]
      [("title", PyVal.str "Dinner"),
       ("alert_before_minutes", PyVal.str "soon")] =
      Except.ok c9SampleEvent ∧
    c9SampleEvent.alert_before_minutes = Option.some 15 :=
  ⟨c9_alert_defaults_to_15.1 { c9SampleEvent with
      alert_before_minutes := Option.none } rfl,
   rfl, rfl,
   c9_alert_defaults_to_15.2 (fun _ => Option.none) (fun _ => Option.none)
     "uuid-2" "t1"
     [("source_id", PyVal.str "mail")]
     [("title", PyVal.str "Dinner"),
      ("alert_before_minutes", PyVal.str "soon")] c9SampleEvent
     (Or.inr rfl) rfl⟩

end Kiddo
